import Mathlib

/-!
Verification of the blackjack advisor engine.

The Python sources under `src/bj_advisor` are shallowly embedded below:
pure functions become Lean functions, the `Shoe` and `SplitHands` mutable
objects become explicit state passing over structures, and raising
`ValueError` becomes returning `none` from an `Option`-valued function.
Python `float` true counts and thresholds only ever take part in order
comparisons against decimal constants that are exactly representable, so
they are embedded as rationals (`ℚ`), which preserves the outcome of every
comparison performed by the code.
-/

namespace BJ

/-- Card ranks, from the `Rank` enum in `core/card.py`. -/
inductive Rank
  | two | three | four | five | six | seven | eight | nine
  | ten | jack | queen | king | ace
  deriving DecidableEq

/-- `Rank.symbol` from `core/card.py`. -/
def Rank.symbol : Rank → String
  | .two => "2" | .three => "3" | .four => "4" | .five => "5" | .six => "6"
  | .seven => "7" | .eight => "8" | .nine => "9"
  | .ten => "T" | .jack => "J" | .queen => "Q" | .king => "K" | .ace => "A"

/-- `Rank.bj_value` from `core/card.py`. -/
def Rank.bj_value : Rank → Nat
  | .two => 2 | .three => 3 | .four => 4 | .five => 5 | .six => 6
  | .seven => 7 | .eight => 8 | .nine => 9
  | .ten => 10 | .jack => 10 | .queen => 10 | .king => 10 | .ace => 11

/-- `Rank.hi_lo_value` from `core/card.py`: +1 for 2-6, 0 for 7-9, -1 for T-A. -/
def Rank.hi_lo_value : Rank → Int
  | .two => 1 | .three => 1 | .four => 1 | .five => 1 | .six => 1
  | .seven => 0 | .eight => 0 | .nine => 0
  | .ten => -1 | .jack => -1 | .queen => -1 | .king => -1 | .ace => -1

/-- Iteration order of the `Rank` enum (`for rank in cls` in `from_string`). -/
def allRanks : List Rank :=
  [.two, .three, .four, .five, .six, .seven, .eight, .nine,
   .ten, .jack, .queen, .king, .ace]

/-- Python `str.upper()` over the character list (for the ASCII tokens in
play, identical to Lean's position-based `String.toUpper`). -/
def strUpper (s : String) : String := String.mk (s.data.map Char.toUpper)

/-- Python `str.strip()` over the character list: drop whitespace from
both ends. -/
def strTrim (s : String) : String :=
  String.mk
    (((s.data.dropWhile Char.isWhitespace).reverse.dropWhile
        Char.isWhitespace).reverse)

/-- The uppercase/`"10"` normalization performed at the top of
`Rank.from_string` in `core/card.py`. -/
def rankNormalize (s : String) : String :=
  let s := strUpper s
  if s = "10" then "T" else s

/-- `Rank.from_string` from `core/card.py`; `none` models the
`ValueError` (`InvalidRank`) raise. -/
def Rank.from_string (s : String) : Option Rank :=
  allRanks.find? (fun r => r.symbol = rankNormalize s)

/-- `Card` dataclass from `core/card.py` (a suit-less card: just a rank). -/
structure Card where
  rank : Rank
  deriving DecidableEq

/-- `Card.hi_lo_value` property from `core/card.py`. -/
def Card.hi_lo_value (c : Card) : Int := c.rank.hi_lo_value

/-- `Card.value` property from `core/card.py`. -/
def Card.value (c : Card) : Nat := c.rank.bj_value

/-- `Card.from_string` from `core/card.py`. -/
def Card.from_string (s : String) : Option Card :=
  (Rank.from_string s).map Card.mk

/-- `_parse_card` from `tui/table_simulator.py`: uppercases, rejects the
command words, removes the suit characters H, S, D, C anywhere in the
token (falling back to the first character when nothing remains), then
delegates to `Card.from_string`.  Whitespace trimming is kept. -/
def parse_card (s : String) : Option Card :=
  let s := strUpper (strTrim s)
  if s = "STATUS" ∨ s = "HELP" ∨ s = "QUIT" ∨ s = "EXIT" ∨ s = "UNDO" then
    none
  else
    let rank_str := String.mk (s.data.filter
      (fun c => ¬(c = 'H' ∨ c = 'S' ∨ c = 'D' ∨ c = 'C')))
    let rank_str :=
      if rank_str = "" then
        match s.data with
        | [] => ""
        | c :: _ => String.mk [c]
      else rank_str
    Card.from_string rank_str

/-- `Hand` from `core/hand.py`: an ordered list of cards. -/
structure Hand where
  cards : List Card
  deriving DecidableEq

/-- `Hand.is_empty` from `core/hand.py`. -/
def Hand.is_empty (h : Hand) : Bool := h.cards.length = 0

/-- `Hand.is_pair` from `core/hand.py`: exactly two cards with equal
blackjack values. -/
def Hand.is_pair (h : Hand) : Bool :=
  match h.cards with
  | [a, b] => a.rank.bj_value = b.rank.bj_value
  | _ => false

/-- `Hand.pair_rank` from `core/hand.py`. -/
def Hand.pair_rank (h : Hand) : Option Rank :=
  match h.cards with
  | [a, b] => if a.rank.bj_value = b.rank.bj_value then some a.rank else none
  | _ => none

/-- `Hand.ace_count` from `core/hand.py`. -/
def Hand.ace_count (h : Hand) : Nat :=
  h.cards.countP (fun c => c.rank = Rank.ace)

/-- The sum of blackjack values over the non-Ace cards, the first step of
`Hand._calculate_total` in `core/hand.py`. -/
def Hand.non_ace_sum (h : Hand) : Nat :=
  ((h.cards.filter (fun c => ¬(c.rank = Rank.ace))).map Card.value).sum

/-- `Hand._calculate_total` from `core/hand.py`. -/
def Hand.calculate_total (h : Hand) : Nat × Bool :=
  if h.cards = [] then (0, false)
  else
    let total := h.non_ace_sum
    let aces := h.ace_count
    if aces = 0 then (total, false)
    else
      let total := total + aces
      if total + 10 ≤ 21 then (total + 10, true) else (total, false)

/-- `Hand.total` from `core/hand.py`. -/
def Hand.total (h : Hand) : Nat := h.calculate_total.1

/-- `Hand.is_soft` from `core/hand.py`. -/
def Hand.is_soft (h : Hand) : Bool := h.calculate_total.2

/-- `Hand.is_blackjack` from `core/hand.py`. -/
def Hand.is_blackjack (h : Hand) : Bool :=
  h.cards.length = 2 ∧ h.total = 21

/-- `Hand.is_busted` from `core/hand.py`. -/
def Hand.is_busted (h : Hand) : Bool := 21 < h.total

/-- `Hand.can_double` from `core/hand.py`. -/
def Hand.can_double (h : Hand) : Bool := h.cards.length = 2

/-- `Hand.can_split` from `core/hand.py`. -/
def Hand.can_split (h : Hand) : Bool := h.is_pair

/-- Player actions, the `Action` enum from `strategy/basic_strategy.py`. -/
inductive Action
  | hit | stand | double | split
  deriving DecidableEq

namespace BasicStrategy

/-- `hard_totals` from `strategy/basic_strategy.py`: the outer dictionary
is a partial map from the player total (keys 5..21), each row a map from
the dealer upcard looked up with default Hit (`.get(upcard, HIT)`). -/
def hard_totals : Nat → Option (Nat → Action)
  | 5 => some fun u => match u with
    | 2 => .hit | 3 => .hit | 4 => .hit | 5 => .hit | 6 => .hit
    | 7 => .hit | 8 => .hit | 9 => .hit | 10 => .hit | 11 => .hit | _ => .hit
  | 6 => some fun u => match u with
    | 2 => .hit | 3 => .hit | 4 => .hit | 5 => .hit | 6 => .hit
    | 7 => .hit | 8 => .hit | 9 => .hit | 10 => .hit | 11 => .hit | _ => .hit
  | 7 => some fun u => match u with
    | 2 => .hit | 3 => .hit | 4 => .hit | 5 => .hit | 6 => .hit
    | 7 => .hit | 8 => .hit | 9 => .hit | 10 => .hit | 11 => .hit | _ => .hit
  | 8 => some fun u => match u with
    | 2 => .hit | 3 => .hit | 4 => .hit | 5 => .hit | 6 => .hit
    | 7 => .hit | 8 => .hit | 9 => .hit | 10 => .hit | 11 => .hit | _ => .hit
  | 9 => some fun u => match u with
    | 2 => .hit | 3 => .double | 4 => .double | 5 => .double | 6 => .double
    | 7 => .hit | 8 => .hit | 9 => .hit | 10 => .hit | 11 => .hit | _ => .hit
  | 10 => some fun u => match u with
    | 2 => .double | 3 => .double | 4 => .double | 5 => .double | 6 => .double
    | 7 => .double | 8 => .double | 9 => .double | 10 => .hit | 11 => .hit | _ => .hit
  | 11 => some fun u => match u with
    | 2 => .double | 3 => .double | 4 => .double | 5 => .double | 6 => .double
    | 7 => .double | 8 => .double | 9 => .double | 10 => .double | 11 => .double | _ => .hit
  | 12 => some fun u => match u with
    | 2 => .hit | 3 => .hit | 4 => .stand | 5 => .stand | 6 => .stand
    | 7 => .hit | 8 => .hit | 9 => .hit | 10 => .hit | 11 => .hit | _ => .hit
  | 13 => some fun u => match u with
    | 2 => .stand | 3 => .stand | 4 => .stand | 5 => .stand | 6 => .stand
    | 7 => .hit | 8 => .hit | 9 => .hit | 10 => .hit | 11 => .hit | _ => .hit
  | 14 => some fun u => match u with
    | 2 => .stand | 3 => .stand | 4 => .stand | 5 => .stand | 6 => .stand
    | 7 => .hit | 8 => .hit | 9 => .hit | 10 => .hit | 11 => .hit | _ => .hit
  | 15 => some fun u => match u with
    | 2 => .stand | 3 => .stand | 4 => .stand | 5 => .stand | 6 => .stand
    | 7 => .hit | 8 => .hit | 9 => .hit | 10 => .hit | 11 => .hit | _ => .hit
  | 16 => some fun u => match u with
    | 2 => .stand | 3 => .stand | 4 => .stand | 5 => .stand | 6 => .stand
    | 7 => .hit | 8 => .hit | 9 => .hit | 10 => .hit | 11 => .hit | _ => .hit
  | 17 => some fun u => match u with
    | 2 => .stand | 3 => .stand | 4 => .stand | 5 => .stand | 6 => .stand
    | 7 => .stand | 8 => .stand | 9 => .stand | 10 => .stand | 11 => .stand | _ => .hit
  | 18 => some fun u => match u with
    | 2 => .stand | 3 => .stand | 4 => .stand | 5 => .stand | 6 => .stand
    | 7 => .stand | 8 => .stand | 9 => .stand | 10 => .stand | 11 => .stand | _ => .hit
  | 19 => some fun u => match u with
    | 2 => .stand | 3 => .stand | 4 => .stand | 5 => .stand | 6 => .stand
    | 7 => .stand | 8 => .stand | 9 => .stand | 10 => .stand | 11 => .stand | _ => .hit
  | 20 => some fun u => match u with
    | 2 => .stand | 3 => .stand | 4 => .stand | 5 => .stand | 6 => .stand
    | 7 => .stand | 8 => .stand | 9 => .stand | 10 => .stand | 11 => .stand | _ => .hit
  | 21 => some fun u => match u with
    | 2 => .stand | 3 => .stand | 4 => .stand | 5 => .stand | 6 => .stand
    | 7 => .stand | 8 => .stand | 9 => .stand | 10 => .stand | 11 => .stand | _ => .hit
  | _ => none

/-- `soft_totals` from `strategy/basic_strategy.py` (keys 13..21). -/
def soft_totals : Nat → Option (Nat → Action)
  | 13 => some fun u => match u with
    | 2 => .hit | 3 => .hit | 4 => .hit | 5 => .double | 6 => .double
    | 7 => .hit | 8 => .hit | 9 => .hit | 10 => .hit | 11 => .hit | _ => .hit
  | 14 => some fun u => match u with
    | 2 => .hit | 3 => .hit | 4 => .hit | 5 => .double | 6 => .double
    | 7 => .hit | 8 => .hit | 9 => .hit | 10 => .hit | 11 => .hit | _ => .hit
  | 15 => some fun u => match u with
    | 2 => .hit | 3 => .hit | 4 => .double | 5 => .double | 6 => .double
    | 7 => .hit | 8 => .hit | 9 => .hit | 10 => .hit | 11 => .hit | _ => .hit
  | 16 => some fun u => match u with
    | 2 => .hit | 3 => .hit | 4 => .double | 5 => .double | 6 => .double
    | 7 => .hit | 8 => .hit | 9 => .hit | 10 => .hit | 11 => .hit | _ => .hit
  | 17 => some fun u => match u with
    | 2 => .hit | 3 => .double | 4 => .double | 5 => .double | 6 => .double
    | 7 => .hit | 8 => .hit | 9 => .hit | 10 => .hit | 11 => .hit | _ => .hit
  | 18 => some fun u => match u with
    | 2 => .stand | 3 => .double | 4 => .double | 5 => .double | 6 => .double
    | 7 => .stand | 8 => .stand | 9 => .hit | 10 => .hit | 11 => .hit | _ => .hit
  | 19 => some fun u => match u with
    | 2 => .stand | 3 => .stand | 4 => .stand | 5 => .stand | 6 => .stand
    | 7 => .stand | 8 => .stand | 9 => .stand | 10 => .stand | 11 => .stand | _ => .hit
  | 20 => some fun u => match u with
    | 2 => .stand | 3 => .stand | 4 => .stand | 5 => .stand | 6 => .stand
    | 7 => .stand | 8 => .stand | 9 => .stand | 10 => .stand | 11 => .stand | _ => .hit
  | 21 => some fun u => match u with
    | 2 => .stand | 3 => .stand | 4 => .stand | 5 => .stand | 6 => .stand
    | 7 => .stand | 8 => .stand | 9 => .stand | 10 => .stand | 11 => .stand | _ => .hit
  | _ => none

/-- `pairs` from `strategy/basic_strategy.py` (keys: pair blackjack value
2..11). -/
def pairs : Nat → Option (Nat → Action)
  | 2 => some fun u => match u with
    | 2 => .hit | 3 => .hit | 4 => .split | 5 => .split | 6 => .split
    | 7 => .split | 8 => .hit | 9 => .hit | 10 => .hit | 11 => .hit | _ => .hit
  | 3 => some fun u => match u with
    | 2 => .hit | 3 => .hit | 4 => .split | 5 => .split | 6 => .split
    | 7 => .split | 8 => .hit | 9 => .hit | 10 => .hit | 11 => .hit | _ => .hit
  | 4 => some fun u => match u with
    | 2 => .hit | 3 => .hit | 4 => .hit | 5 => .split | 6 => .split
    | 7 => .hit | 8 => .hit | 9 => .hit | 10 => .hit | 11 => .hit | _ => .hit
  | 5 => some fun u => match u with
    | 2 => .double | 3 => .double | 4 => .double | 5 => .double | 6 => .double
    | 7 => .double | 8 => .double | 9 => .double | 10 => .hit | 11 => .hit | _ => .hit
  | 6 => some fun u => match u with
    | 2 => .hit | 3 => .split | 4 => .split | 5 => .split | 6 => .split
    | 7 => .hit | 8 => .hit | 9 => .hit | 10 => .hit | 11 => .hit | _ => .hit
  | 7 => some fun u => match u with
    | 2 => .split | 3 => .split | 4 => .split | 5 => .split | 6 => .split
    | 7 => .split | 8 => .hit | 9 => .hit | 10 => .hit | 11 => .hit | _ => .hit
  | 8 => some fun u => match u with
    | 2 => .split | 3 => .split | 4 => .split | 5 => .split | 6 => .split
    | 7 => .split | 8 => .split | 9 => .split | 10 => .split | 11 => .split | _ => .hit
  | 9 => some fun u => match u with
    | 2 => .split | 3 => .split | 4 => .split | 5 => .split | 6 => .split
    | 7 => .stand | 8 => .split | 9 => .split | 10 => .stand | 11 => .stand | _ => .hit
  | 10 => some fun u => match u with
    | 2 => .stand | 3 => .stand | 4 => .stand | 5 => .stand | 6 => .stand
    | 7 => .stand | 8 => .stand | 9 => .stand | 10 => .stand | 11 => .stand | _ => .hit
  | 11 => some fun u => match u with
    | 2 => .split | 3 => .split | 4 => .split | 5 => .split | 6 => .split
    | 7 => .split | 8 => .split | 9 => .split | 10 => .split | 11 => .split | _ => .hit
  | _ => none

/-- The `if action == DOUBLE and not can_double: return HIT` demotion used
in the soft-total and hard-total branches of `BasicStrategy.get_action`. -/
def demote (a : Action) (can_double : Bool) : Action :=
  if a = .double ∧ can_double = false then .hit else a

/-- `BasicStrategy.get_action` from `strategy/basic_strategy.py`.  The
pair branch returns its table entry directly (no Double demotion) and, when
the pair value has no row, falls through; a soft total with no row in the
soft table likewise falls through to the hard-total lookup. -/
def get_action (hand : Hand) (dealer_upcard_value : Nat)
    (can_double : Bool) : Action :=
  if hand.is_busted then .stand
  else if hand.is_blackjack then .stand
  else
    let pairStep : Option Action :=
      if hand.is_pair then
        match hand.pair_rank with
        | some r => (pairs r.bj_value).map (fun row => row dealer_upcard_value)
        | none => none
      else none
    match pairStep with
    | some a => a
    | none =>
      let softStep : Option Action :=
        if hand.is_soft then
          (soft_totals hand.total).map
            (fun row => demote (row dealer_upcard_value) can_double)
        else none
      match softStep with
      | some a => a
      | none =>
        match hard_totals hand.total with
        | some row => demote (row dealer_upcard_value) can_double
        | none => .hit

end BasicStrategy

/-- `IndexPlay` dataclass from `strategy/index_plays.py`.  The `name` and
`description` strings are kept; thresholds are rationals (see header). -/
structure IndexPlay where
  name : String
  description : String
  player_total : Nat
  dealer_upcard : Nat
  is_soft : Bool
  is_pair : Bool
  true_count_threshold : ℚ
  basic_action : Action
  index_action : Action
  deriving DecidableEq

/-- `IndexPlay.applies` from `strategy/index_plays.py`. -/
def IndexPlay.applies (p : IndexPlay) (hand : Hand)
    (dealer_upcard_value : Nat) (true_count : ℚ) : Bool :=
  if ¬(hand.total = p.player_total) then false
  else if ¬(dealer_upcard_value = p.dealer_upcard) then false
  else if p.is_soft ∧ ¬(hand.is_soft = true) then false
  else if ¬(p.is_soft = true) ∧ hand.is_soft then false
  else if p.is_pair ∧ ¬(hand.is_pair = true) then false
  else if ¬(p.is_pair = true) ∧ hand.is_pair then false
  else if 0 ≤ p.true_count_threshold then
    p.true_count_threshold ≤ true_count
  else
    true_count ≤ p.true_count_threshold

/-- `IndexPlay.get_action` from `strategy/index_plays.py`. -/
def IndexPlay.get_action (p : IndexPlay) (true_count : ℚ) : Action :=
  if 0 ≤ p.true_count_threshold then
    if p.true_count_threshold ≤ true_count then p.index_action
    else p.basic_action
  else
    if true_count ≤ p.true_count_threshold then p.index_action
    else p.basic_action

namespace IndexPlays

/-- `IndexPlays.plays`, the rule list built in `IndexPlays.__init__` of
`strategy/index_plays.py`, in declaration order. -/
def plays : List IndexPlay :=
  [⟨"16 vs 10", "Stand 16 vs 10 at TC >= 0",
      16, 10, false, false, 0, .hit, .stand⟩,
   ⟨"15 vs 10", "Stand 15 vs 10 at TC >= +4",
      15, 10, false, false, 4, .hit, .stand⟩,
   ⟨"10 vs 10", "Double 10 vs 10 at TC >= +4",
      10, 10, false, false, 4, .hit, .double⟩,
   ⟨"12 vs 3", "Stand 12 vs 3 at TC >= +2",
      12, 3, false, false, 2, .hit, .stand⟩,
   ⟨"12 vs 2", "Stand 12 vs 2 at TC >= +3",
      12, 2, false, false, 3, .hit, .stand⟩,
   ⟨"11 vs A", "Double 11 vs A at TC >= +1",
      11, 11, false, false, 1, .hit, .double⟩,
   ⟨"9 vs 2", "Double 9 vs 2 at TC >= +1",
      9, 2, false, false, 1, .hit, .double⟩,
   ⟨"10 vs A", "Double 10 vs A at TC >= +4",
      10, 11, false, false, 4, .hit, .double⟩,
   ⟨"9 vs 7", "Double 9 vs 7 at TC >= +3",
      9, 7, false, false, 3, .hit, .double⟩,
   ⟨"16 vs 9", "Stand 16 vs 9 at TC >= +5",
      16, 9, false, false, 5, .hit, .stand⟩,
   ⟨"13 vs 2 (negative)", "Hit 13 vs 2 at TC <= -1",
      13, 2, false, false, -1, .stand, .hit⟩,
   ⟨"12 vs 4 (negative)", "Hit 12 vs 4 at TC <= 0",
      12, 4, false, false, 0, .stand, .hit⟩,
   ⟨"12 vs 5 (negative)", "Hit 12 vs 5 at TC <= -2",
      12, 5, false, false, -2, .stand, .hit⟩,
   ⟨"12 vs 6 (negative)", "Hit 12 vs 6 at TC <= -1",
      12, 6, false, false, -1, .stand, .hit⟩,
   ⟨"13 vs 3 (negative)", "Hit 13 vs 3 at TC <= -2",
      13, 3, false, false, -2, .stand, .hit⟩,
   ⟨"20 vs 5 (split)", "Split 10,10 vs 5 at TC >= +5",
      20, 5, false, true, 5, .stand, .split⟩,
   ⟨"20 vs 6 (split)", "Split 10,10 vs 6 at TC >= +4",
      20, 6, false, true, 4, .stand, .split⟩,
   ⟨"AA vs A (negative)", "Stand A,A vs A at TC <= -1",
      12, 11, true, true, -1, .split, .stand⟩,
   ⟨"8 vs 6", "Double 8 vs 6 at TC >= +2",
      8, 6, false, false, 2, .hit, .double⟩,
   ⟨"15 vs A", "Stand 15 vs A at TC >= +5",
      15, 11, false, false, 5, .hit, .stand⟩,
   ⟨"14 vs 10", "Stand 14 vs 10 at TC >= +3",
      14, 10, false, false, 3, .hit, .stand⟩,
   ⟨"A,6 vs 2", "Double A,6 vs 2 at TC >= +1",
      17, 2, true, false, 1, .hit, .double⟩,
   ⟨"A,5 vs 4", "Double A,5 vs 4 at TC >= +2",
      16, 4, true, false, 2, .hit, .double⟩,
   ⟨"13 vs 4 (negative)", "Hit 13 vs 4 at TC <= -1",
      13, 4, false, false, -1, .stand, .hit⟩]

/-- `IndexPlays.insurance_threshold` from `strategy/index_plays.py`. -/
def insurance_threshold : ℚ := 3

/-- `IndexPlays.get_applicable_plays` from `strategy/index_plays.py`. -/
def get_applicable_plays (hand : Hand) (dealer_upcard_value : Nat)
    (true_count : ℚ) : List IndexPlay :=
  plays.filter (fun p => p.applies hand dealer_upcard_value true_count)

/-- `IndexPlays.get_index_action` from `strategy/index_plays.py`: the first
applicable play decides; otherwise the supplied basic action stands. -/
def get_index_action (hand : Hand) (dealer_upcard_value : Nat)
    (true_count : ℚ) (basic_action : Action) : Action × Option IndexPlay :=
  match get_applicable_plays hand dealer_upcard_value true_count with
  | [] => (basic_action, none)
  | p :: _ => (p.get_action true_count, some p)

/-- `IndexPlays.should_take_insurance` from `strategy/index_plays.py`. -/
def should_take_insurance (true_count : ℚ) : Bool :=
  insurance_threshold ≤ true_count

end IndexPlays

namespace Advisor

/-- The candidate action in `Advisor.get_advice` before the feasibility
corrections: basic strategy, possibly overridden by an index play
(`strategy/advisor.py`, lines 22-30). -/
def candidate (hand : Hand) (dealer_upcard_value : Nat) (true_count : ℚ)
    (can_double : Bool) : Action :=
  (IndexPlays.get_index_action hand dealer_upcard_value true_count
    (BasicStrategy.get_action hand dealer_upcard_value can_double)).1

/-- The `action` field of `Advisor.get_advice` from `strategy/advisor.py`:
the candidate, then the Double feasibility demotion, then the Split
feasibility demotion. -/
def get_advice_action (hand : Hand) (dealer_upcard_value : Nat)
    (true_count : ℚ) (can_double can_split : Bool) : Action :=
  let fa := candidate hand dealer_upcard_value true_count can_double
  let fa := if can_double = false ∧ fa = .double then .hit else fa
  if ¬(can_split = true ∧ hand.is_pair = true) ∧ fa = .split then
    if 17 ≤ hand.total then .stand else .hit
  else fa

/-- The `take_insurance` field of `Advisor.get_insurance_advice` from
`strategy/advisor.py`. -/
def get_insurance_take (true_count : ℚ) : Bool :=
  IndexPlays.insurance_threshold ≤ true_count

end Advisor

/-- `Shoe` state from `core/card.py`: the dealt log and the running count
(the derived properties are functions of these and `num_decks`). -/
structure Shoe where
  num_decks : Nat
  cards_dealt : List Card
  running_count : Int
  deriving DecidableEq

/-- A freshly constructed `Shoe` (`Shoe.__init__`). -/
def Shoe.fresh (num_decks : Nat) : Shoe := ⟨num_decks, [], 0⟩

/-- `Shoe.deal_card` from `core/card.py`. -/
def Shoe.deal_card (s : Shoe) (c : Card) : Shoe :=
  { s with cards_dealt := s.cards_dealt ++ [c],
           running_count := s.running_count + c.hi_lo_value }

/-- `Shoe.shuffle` from `core/card.py`. -/
def Shoe.shuffle (s : Shoe) : Shoe :=
  { s with cards_dealt := [], running_count := 0 }

/-- One mutation of a `Shoe`: either `deal_card` or `shuffle`. -/
inductive ShoeOp
  | deal (c : Card)
  | shuffle

/-- Run a sequence of shoe operations left to right. -/
def Shoe.apply_ops (s : Shoe) : List ShoeOp → Shoe
  | [] => s
  | .deal c :: ops => (s.deal_card c).apply_ops ops
  | .shuffle :: ops => s.shuffle.apply_ops ops

/-- `SplitHands` state from `core/hand.py`. -/
structure SplitHands where
  hands : List Hand
  current_hand_index : Nat
  completed_hands : Finset Nat
  deriving DecidableEq

/-- `SplitHands.current_hand` from `core/hand.py` (out-of-range cursors,
impossible for reachable states, read as an empty hand). -/
def SplitHands.current_hand (s : SplitHands) : Hand :=
  s.hands.getD s.current_hand_index (Hand.mk [])

/-- `SplitHands.is_complete` from `core/hand.py`: the completed set has as
many members as there are hands. -/
def SplitHands.is_complete (s : SplitHands) : Bool :=
  s.completed_hands.card = s.hands.length

/-- The scan in `SplitHands.complete_current_hand`
(`for i in range(len(hands))`): the first index `i` with
`start ≤ i < start + fuel` not in `done`, if any. -/
def scanNotDone (done : Finset Nat) : Nat → Nat → Option Nat
  | _, 0 => none
  | i, fuel + 1 => if i ∈ done then scanNotDone done (i + 1) fuel else some i

/-- `SplitHands.complete_current_hand` from `core/hand.py`: add the cursor
to the completed set, then move the cursor to the first not-yet-completed
index counting from 0; when all are completed the cursor is unchanged. -/
def SplitHands.complete_current_hand (s : SplitHands) : SplitHands :=
  let done := insert s.current_hand_index s.completed_hands
  match scanNotDone done 0 s.hands.length with
  | some i => { s with completed_hands := done, current_hand_index := i }
  | none => { s with completed_hands := done }

/-- `SplitHands.can_split_current` from `core/hand.py` (`Max 4 hands` is
hard-coded in the source). -/
def SplitHands.can_split_current (s : SplitHands) : Bool :=
  s.current_hand.can_split ∧ s.hands.length < 4

/-- Python `list.insert(i, a)`: insert before position `i`, clamping at the
end of the list. -/
def listInsertAt : Nat → α → List α → List α
  | 0, a, l => a :: l
  | _ + 1, a, [] => [a]
  | n + 1, a, x :: l => x :: listInsertAt n a l

/-- `SplitHands.split_current` from `core/hand.py`; `none` models the two
`ValueError` raises (`InvalidSplit`).  On success the cursor's hand is
replaced by a one-card hand holding its first card and a one-card hand
holding its second card is inserted right after it. -/
def SplitHands.split_current (s : SplitHands) : Option SplitHands :=
  if ¬(s.can_split_current = true) then none
  else
    match s.current_hand.cards with
    | [c0, c1] =>
      some { s with
        hands := listInsertAt (s.current_hand_index + 1) (Hand.mk [c1])
          (s.hands.set s.current_hand_index (Hand.mk [c0])) }
    | _ => none

/-- The running-count invariant of a `Shoe`. -/
def Shoe.count_inv (s : Shoe) : Prop :=
  s.running_count = (s.cards_dealt.map Card.hi_lo_value).sum

/-- A three-hand split state whose cursor sits past an unfinished hand,
used to exercise `complete_current_hand`. -/
def exSplitState : SplitHands :=
  ⟨[Hand.mk [], Hand.mk [], Hand.mk []], 2, {1}⟩

/-- A two-hand split state whose current hand is a pair of eights, used to
exercise `split_current`. -/
def exSplittable : SplitHands :=
  ⟨[Hand.mk [⟨.eight⟩, ⟨.eight⟩], Hand.mk [⟨.five⟩]], 0, ∅⟩

/-! ## Theorems -/

/-- If a hand has an Ace, its card list is nonempty. -/
theorem Hand.cards_ne_nil_of_ace (h : Hand) (ha : 1 ≤ h.ace_count) :
    ¬(h.cards = []) := by
  intro hc
  simp [Hand.ace_count, hc] at ha

/-- Claim C1 counterexample: the spec formula quantifies over every hand,
but for the one-card hand `[5]` (non-ace sum 5, ace count 0) it demands
total `5+0+10 = 15` and a soft hand, while the code computes total 5,
hard. -/
theorem C1_counterexample :
    (Hand.mk [⟨.five⟩]).non_ace_sum + (Hand.mk [⟨.five⟩]).ace_count + 10 ≤ 21 ∧
    ¬((Hand.mk [⟨.five⟩]).total =
        (Hand.mk [⟨.five⟩]).non_ace_sum + (Hand.mk [⟨.five⟩]).ace_count + 10 ∧
      (Hand.mk [⟨.five⟩]).is_soft = true) := by
  decide

/-- Claim C1 (amended): for every hand with at least one Ace, with `s` the
sum of blackjack values of the non-Ace cards and `k` the Ace count,
`total = s+k+10` and the hand is soft iff `s+k+10 ≤ 21`, else
`total = s+k` and the hand is hard; a hand with no Aces has `total = s`
and is never soft; the empty hand has total 0 and is not soft. -/
theorem C1_hand_total_amended (h : Hand) :
    (1 ≤ h.ace_count →
      (h.non_ace_sum + h.ace_count + 10 ≤ 21 →
        h.total = h.non_ace_sum + h.ace_count + 10 ∧ h.is_soft = true) ∧
      (¬(h.non_ace_sum + h.ace_count + 10 ≤ 21) →
        h.total = h.non_ace_sum + h.ace_count ∧ h.is_soft = false)) ∧
    (h.ace_count = 0 → h.total = h.non_ace_sum ∧ h.is_soft = false) ∧
    ((Hand.mk []).total = 0 ∧ (Hand.mk []).is_soft = false) := by
  refine ⟨fun ha => ?_, fun ha => ?_, by decide⟩
  · have hc := h.cards_ne_nil_of_ace ha
    have hz : ¬(h.ace_count = 0) := by omega
    constructor
    · intro hle
      simp [Hand.total, Hand.is_soft, Hand.calculate_total, hc, hz, hle]
    · intro hle
      simp [Hand.total, Hand.is_soft, Hand.calculate_total, hc, hz, hle]
  · by_cases hc : h.cards = []
    · constructor
      · simp [Hand.total, Hand.calculate_total, hc, Hand.non_ace_sum]
      · simp [Hand.is_soft, Hand.calculate_total, hc]
    · constructor
      · simp [Hand.total, Hand.calculate_total, hc, ha]
      · simp [Hand.is_soft, Hand.calculate_total, hc, ha]

/-- Claim C1 witness: the hand `[A,7]` has one Ace, non-ace sum 7, and
`7+1+10 = 18 ≤ 21`, so the amended formula gives total 18, soft. -/
theorem C1_witness :
    (Hand.mk [⟨.ace⟩, ⟨.seven⟩]).total =
      (Hand.mk [⟨.ace⟩, ⟨.seven⟩]).non_ace_sum +
        (Hand.mk [⟨.ace⟩, ⟨.seven⟩]).ace_count + 10 ∧
    (Hand.mk [⟨.ace⟩, ⟨.seven⟩]).is_soft = true :=
  ((C1_hand_total_amended (Hand.mk [⟨.ace⟩, ⟨.seven⟩])).1 (by decide)).1
    (by decide)

/-- `deal_card` and `shuffle` preserve the running-count invariant. -/
theorem Shoe.count_inv_apply_ops (s : Shoe) (hs : s.count_inv)
    (ops : List ShoeOp) : (s.apply_ops ops).count_inv := by
  induction ops generalizing s with
  | nil => exact hs
  | cons op ops ih =>
    cases op with
    | deal c =>
      refine ih _ ?_
      simp [Shoe.count_inv, Shoe.deal_card] at hs ⊢
      omega
    | shuffle =>
      refine ih _ ?_
      simp [Shoe.count_inv, Shoe.shuffle]

/-- Claim C7: after any sequence of `deal_card`/`shuffle` operations on a
fresh shoe, the running count equals the sum of the Hi-Lo counting values
of the cards in the dealt log; and `shuffle` always resets the running
count to 0 and empties the dealt log. -/
theorem C7_running_count_invariant (num_decks : Nat) (ops : List ShoeOp) :
    ((Shoe.fresh num_decks).apply_ops ops).running_count =
      ((((Shoe.fresh num_decks).apply_ops ops).cards_dealt.map
          Card.hi_lo_value).sum) ∧
    (∀ s : Shoe, s.shuffle.running_count = 0 ∧ s.shuffle.cards_dealt = []) := by
  constructor
  · exact Shoe.count_inv_apply_ops (Shoe.fresh num_decks) (by rfl) ops
  · intro s
    exact ⟨rfl, rfl⟩

/-- Claim C8: insurance is recommended exactly when the true count reaches
the 3.0 threshold; the advisor's insurance advice agrees with the index
engine, and concretely true count 3.0 takes insurance while 2.9 skips. -/
theorem C8_insurance_threshold (tc : ℚ) :
    (IndexPlays.should_take_insurance tc = true ↔ 3 ≤ tc) ∧
    Advisor.get_insurance_take tc = IndexPlays.should_take_insurance tc ∧
    IndexPlays.should_take_insurance 3 = true ∧
    IndexPlays.should_take_insurance (29/10) = false := by
  refine ⟨?_,
    rfl,
    by norm_num [IndexPlays.should_take_insurance,
      IndexPlays.insurance_threshold],
    by norm_num [IndexPlays.should_take_insurance,
      IndexPlays.insurance_threshold]⟩
  simp [IndexPlays.should_take_insurance, IndexPlays.insurance_threshold]

/-- Every rank occurs in the enum iteration order. -/
theorem mem_allRanks (r : Rank) : r ∈ allRanks := by
  cases r <;> simp [allRanks]

/-- Claim C9 counterexample: `"2H"` is the rank token `"2"` followed by the
suit letter `H`, yet `Card.from_string` rejects it (`InvalidRank`) even
though it accepts the bare token — the cited encoding functions do not
accept a trailing suit letter. -/
theorem C9_counterexample :
    Card.from_string "2H" = none ∧
    Card.from_string "2" = some (Card.mk Rank.two) := by
  constructor <;> decide

/-- Claim C9 (amended): `Rank.from_string` uppercases its input,
normalizes `"10"` to `"T"`, succeeds exactly on the thirteen rank symbols
(returning the rank whose symbol matches), and fails (`InvalidRank`)
exactly when the normalized token matches no rank symbol; it does not
itself accept trailing suit letters — those are stripped (anywhere in the
token, not only trailing) by the TUI's `_parse_card` wrapper before it
calls `Card.from_string`. -/
theorem C9_rank_parse_amended (s : String) :
    (Rank.from_string s = none ↔
      ∀ r : Rank, ¬(r.symbol = rankNormalize s)) ∧
    (∀ r : Rank, Rank.from_string s = some r → r.symbol = rankNormalize s) ∧
    (Card.from_string "KH" = none ∧
      parse_card "KH" = some (Card.mk Rank.king) ∧
      parse_card "hk" = some (Card.mk Rank.king)) ∧
    (Rank.from_string "10" = some Rank.ten ∧
      Rank.from_string "a" = some Rank.ace ∧
      Rank.from_string "A" = some Rank.ace) := by
  refine ⟨?_, ?_, ⟨by decide, by decide, by decide⟩,
    ⟨by decide, by decide, by decide⟩⟩
  · rw [Rank.from_string, List.find?_eq_none]
    constructor
    · intro hall r
      have := hall r (mem_allRanks r)
      simpa using this
    · intro hall r _
      simpa using hall r
  · intro r hr
    have := List.find?_some hr
    simpa using this

/-- Claim C9 witness: instantiating the amended parsing theorem at the
lowercase token `"q"`: the parse succeeds with the Queen, whose symbol is
the normalized token. -/
theorem C9_witness :
    Rank.queen.symbol = rankNormalize "q" :=
  (C9_rank_parse_amended "q").2.1 Rank.queen (by decide)

/-- `scanNotDone done i fuel = some j` means `j` is the first index at or
after `i` (and within `fuel` steps) that is not in `done`. -/
theorem scanNotDone_some (done : Finset Nat) (fuel : Nat) :
    ∀ i j, scanNotDone done i fuel = some j →
      j ∉ done ∧ i ≤ j ∧ j < i + fuel ∧
        ∀ k, i ≤ k → k < j → k ∈ done := by
  induction fuel with
  | zero => intro i j h; simp [scanNotDone] at h
  | succ fuel ih =>
    intro i j h
    rw [scanNotDone] at h
    by_cases hi : i ∈ done
    · simp only [hi, if_pos] at h
      obtain ⟨h1, h2, h3, h4⟩ := ih (i + 1) j h
      refine ⟨h1, by omega, by omega, ?_⟩
      intro k hk1 hk2
      rcases Nat.eq_or_lt_of_le hk1 with rfl | hk
      · exact hi
      · exact h4 k hk hk2
    · simp only [hi, if_neg, not_false_iff] at h
      cases h
      exact ⟨hi, Nat.le_refl _, by omega, fun k hk1 hk2 => by omega⟩

/-- `scanNotDone done i fuel = none` means every index in the scanned
window is in `done`. -/
theorem scanNotDone_none (done : Finset Nat) (fuel : Nat) :
    ∀ i, scanNotDone done i fuel = none →
      ∀ k, i ≤ k → k < i + fuel → k ∈ done := by
  induction fuel with
  | zero => intro i _ k hk1 hk2; omega
  | succ fuel ih =>
    intro i h k hk1 hk2
    rw [scanNotDone] at h
    by_cases hi : i ∈ done
    · simp only [hi, if_pos] at h
      rcases Nat.eq_or_lt_of_le hk1 with rfl | hk
      · exact hi
      · exact ih (i + 1) h k hk (by omega)
    · simp [hi] at h

/-- Claim C5: `complete_current_hand` adds the cursor index to the finished
set; the new cursor is the lowest hand index not in the updated finished
set when one exists (scanning from index 0, so it can move below the old
cursor), and is unchanged when every index is finished; `is_complete`
holds exactly when every hand index is in the finished set.  The
hypothesis is the reachable-state invariant that finished indices are
hand indices. -/
theorem C5_complete_and_is_complete (s : SplitHands)
    (hsub : ∀ i ∈ s.completed_hands, i < s.hands.length) :
    (s.complete_current_hand.completed_hands =
      insert s.current_hand_index s.completed_hands) ∧
    ((∃ j, j < s.hands.length ∧
        j ∉ insert s.current_hand_index s.completed_hands) →
      s.complete_current_hand.current_hand_index < s.hands.length ∧
      s.complete_current_hand.current_hand_index ∉
        insert s.current_hand_index s.completed_hands ∧
      ∀ k < s.complete_current_hand.current_hand_index,
        k ∈ insert s.current_hand_index s.completed_hands) ∧
    ((∀ j, j < s.hands.length →
        j ∈ insert s.current_hand_index s.completed_hands) →
      s.complete_current_hand.current_hand_index = s.current_hand_index) ∧
    (s.is_complete = true ↔ ∀ i < s.hands.length, i ∈ s.completed_hands) := by
  refine ⟨?_, ?_, ?_, ?_⟩
  · rw [SplitHands.complete_current_hand]
    cases scanNotDone (insert s.current_hand_index s.completed_hands) 0
        s.hands.length <;> rfl
  · intro ⟨j, hj1, hj2⟩
    rw [SplitHands.complete_current_hand]
    cases hscan : scanNotDone (insert s.current_hand_index s.completed_hands)
        0 s.hands.length with
    | some i =>
      obtain ⟨h1, _, h3, h4⟩ := scanNotDone_some _ _ _ _ hscan
      exact ⟨by simpa using h3, h1, fun k hk => h4 k (Nat.zero_le k) hk⟩
    | none =>
      exact absurd (scanNotDone_none _ _ _ hscan j (Nat.zero_le j)
        (by simpa using hj1)) hj2
  · intro hall
    rw [SplitHands.complete_current_hand]
    cases hscan : scanNotDone (insert s.current_hand_index s.completed_hands)
        0 s.hands.length with
    | some i =>
      obtain ⟨h1, _, h3, _⟩ := scanNotDone_some _ _ _ _ hscan
      exact absurd (hall i (by simpa using h3)) h1
    | none => rfl
  · have hrange : s.completed_hands ⊆ Finset.range s.hands.length := by
      intro i hi
      exact Finset.mem_range.mpr (hsub i hi)
    rw [SplitHands.is_complete]
    simp only [decide_eq_true_eq]
    constructor
    · intro hcard i hi
      have : s.completed_hands = Finset.range s.hands.length := by
        apply Finset.eq_of_subset_of_card_le hrange
        rw [Finset.card_range]
        omega
      rw [this]
      exact Finset.mem_range.mpr hi
    · intro hall
      have hsup : Finset.range s.hands.length ⊆ s.completed_hands := by
        intro i hi
        exact hall i (Finset.mem_range.mp hi)
      have : s.completed_hands = Finset.range s.hands.length :=
        Finset.Subset.antisymm hrange hsup
      rw [this, Finset.card_range]

/-- Claim C5 witness: in the three-hand state with cursor 2 and finished
set containing only hand 1, completing the current hand yields finished
set containing 1 and 2, and the cursor moves down to hand 0. -/
theorem C5_witness :
    exSplitState.complete_current_hand.completed_hands =
      insert exSplitState.current_hand_index exSplitState.completed_hands ∧
    exSplitState.complete_current_hand.current_hand_index <
      exSplitState.hands.length ∧
    exSplitState.complete_current_hand.current_hand_index ∉
      insert exSplitState.current_hand_index exSplitState.completed_hands :=
  ⟨(C5_complete_and_is_complete exSplitState (by decide)).1,
   ((C5_complete_and_is_complete exSplitState (by decide)).2.1
      ⟨0, by decide, by decide⟩).1,
   ((C5_complete_and_is_complete exSplitState (by decide)).2.1
      ⟨0, by decide, by decide⟩).2.1⟩

/-- Setting index `i` of a list and then inserting right after it splices
the two new elements in place of the old one. -/
theorem listInsertAt_set_eq (a b : α) :
    ∀ (l : List α) (i : Nat), i < l.length →
      listInsertAt (i + 1) b (l.set i a) =
        l.take i ++ a :: b :: l.drop (i + 1) := by
  intro l
  induction l with
  | nil => intro i hi; simp at hi
  | cons x l ih =>
    intro i hi
    cases i with
    | zero => simp [listInsertAt]
    | succ n =>
      simp only [List.set_cons_succ, List.take_succ_cons, List.drop_succ_cons,
        List.cons_append, listInsertAt]
      rw [ih n (by simpa using hi)]

/-- Claim C6: `split_current` fails exactly when the hand at the cursor is
not a pair or there are already `max_split_hands = 4` hands; on success the
cursor's pair hand is replaced by two one-card hands (first card, then
second card of the pair, which have equal blackjack values), the later
hands shift right by one, the hand count grows by one, and the cursor and
the finished set are unchanged. -/
theorem C6_split_current (s : SplitHands)
    (hcur : s.current_hand_index < s.hands.length)
    (hlen : s.hands.length ≤ 4) :
    (s.split_current = none ↔
      (s.current_hand.is_pair = false ∨ s.hands.length = 4)) ∧
    (∀ s' : SplitHands, s.split_current = some s' →
      s'.current_hand_index = s.current_hand_index ∧
      s'.completed_hands = s.completed_hands ∧
      s'.hands.length = s.hands.length + 1 ∧
      ∃ c0 c1 : Card, s.current_hand.cards = [c0, c1] ∧
        c0.rank.bj_value = c1.rank.bj_value ∧
        s'.hands = s.hands.take s.current_hand_index ++
          Hand.mk [c0] :: Hand.mk [c1] ::
            s.hands.drop (s.current_hand_index + 1)) := by
  by_cases hcs : s.can_split_current = true
  · have hpair : s.current_hand.is_pair = true := by
      have := hcs
      simp [SplitHands.can_split_current, Hand.can_split] at this
      exact this.1
    have hne4 : ¬(s.hands.length = 4) := by
      have := hcs
      simp [SplitHands.can_split_current] at this
      omega
    obtain ⟨c0, c1, hcards, hbj⟩ :
        ∃ c0 c1 : Card, s.current_hand.cards = [c0, c1] ∧
          c0.rank.bj_value = c1.rank.bj_value := by
      rw [Hand.is_pair] at hpair
      cases hc : s.current_hand.cards with
      | nil => rw [hc] at hpair; simp at hpair
      | cons x t =>
        cases t with
        | nil => rw [hc] at hpair; simp at hpair
        | cons y t2 =>
          cases t2 with
          | nil =>
            rw [hc] at hpair
            simp only [decide_eq_true_eq] at hpair
            exact ⟨x, y, rfl, hpair⟩
          | cons z t3 => rw [hc] at hpair; simp at hpair
    have hsplit : s.split_current = some { s with
        hands := listInsertAt (s.current_hand_index + 1) (Hand.mk [c1])
          (s.hands.set s.current_hand_index (Hand.mk [c0])) } := by
      rw [SplitHands.split_current]
      rw [if_neg (by simp [hcs])]
      rw [hcards]
    constructor
    · rw [hsplit]
      simp [hpair, hne4]
    · intro s' hs'
      rw [hsplit] at hs'
      cases hs'
      have heq := listInsertAt_set_eq (Hand.mk [c0]) (Hand.mk [c1]) s.hands
        s.current_hand_index hcur
      refine ⟨rfl, rfl, ?_, c0, c1, hcards, hbj, heq⟩
      rw [heq]
      simp only [List.length_append, List.length_take, List.length_cons,
        List.length_drop]
      omega
  · have hnone : s.split_current = none := by
      rw [SplitHands.split_current, if_pos (by simpa using hcs)]
    constructor
    · rw [hnone]
      simp only [true_iff]
      simp [SplitHands.can_split_current, Hand.can_split] at hcs
      by_cases hp : s.current_hand.is_pair = true
      · right
        have := hcs hp
        omega
      · left
        simpa using hp
    · intro s' hs'
      rw [hnone] at hs'
      cases hs'

/-- Claim C6 witness: the two-hand state with a pair of eights at the
cursor splits successfully into three hands, the first two each holding
one eight. -/
theorem C6_witness :
    ¬(exSplittable.split_current = none) := by
  intro h
  have h2 := (C6_split_current exSplittable (by decide) (by decide)).1.mp h
  revert h2
  decide

/-- Every pair value that can arise from a rank (2..11) has a row in the
pair table. -/
theorem pairs_isSome (r : Rank) : (BasicStrategy.pairs r.bj_value).isSome := by
  cases r <;> rfl

/-- Claim C2 counterexample: in the pair branch the table action is
returned without the Double demotion, so the pair 5,5 against dealer 2
with doubling unavailable still yields Double (the claim demands Hit);
likewise a single Ace (soft 11, absent from the soft table) does not
default to Hit but falls through to the hard-11 row and yields Double. -/
theorem C2_counterexample :
    (Hand.mk [⟨.five⟩, ⟨.five⟩]).is_pair = true ∧
    BasicStrategy.get_action (Hand.mk [⟨.five⟩, ⟨.five⟩]) 2 false =
      Action.double ∧
    (Hand.mk [⟨.ace⟩]).is_soft = true ∧
    BasicStrategy.soft_totals (Hand.mk [⟨.ace⟩]).total = none ∧
    BasicStrategy.get_action (Hand.mk [⟨.ace⟩]) 5 true = Action.double := by
  refine ⟨by decide, by decide, by decide, rfl, by decide⟩

/-- Claim C2 (amended): `BasicStrategy.get_action` returns Stand on busted
or blackjack hands; for a pair it returns the pair-table entry keyed by
(pair blackjack value, upcard) with the pair check taking priority over
the soft check, and without the Double demotion; for a non-pair soft hand
whose total is a soft-table key it returns that entry with Double demoted
to Hit when doubling is unavailable; any other hand (including soft hands
missing from the soft table) uses the hard-table entry with the same
demotion when the total is a hard-table key, else Hit. -/
theorem C2_get_action_amended (hand : Hand) (u : Nat) (cd : Bool) :
    (hand.is_busted = true → BasicStrategy.get_action hand u cd = .stand) ∧
    (hand.is_busted = false → hand.is_blackjack = true →
      BasicStrategy.get_action hand u cd = .stand) ∧
    (hand.is_busted = false → hand.is_blackjack = false →
      ∀ r, hand.pair_rank = some r →
      BasicStrategy.get_action hand u cd =
        ((BasicStrategy.pairs r.bj_value).map (fun row => row u)).getD .hit) ∧
    (hand.is_busted = false → hand.is_blackjack = false →
      hand.is_pair = false → hand.is_soft = true →
      ∀ row, BasicStrategy.soft_totals hand.total = some row →
      BasicStrategy.get_action hand u cd =
        BasicStrategy.demote (row u) cd) ∧
    (hand.is_busted = false → hand.is_blackjack = false →
      hand.is_pair = false →
      (hand.is_soft = false ∨ BasicStrategy.soft_totals hand.total = none) →
      ∀ row, BasicStrategy.hard_totals hand.total = some row →
      BasicStrategy.get_action hand u cd =
        BasicStrategy.demote (row u) cd) ∧
    (hand.is_busted = false → hand.is_blackjack = false →
      hand.is_pair = false →
      (hand.is_soft = false ∨ BasicStrategy.soft_totals hand.total = none) →
      BasicStrategy.hard_totals hand.total = none →
      BasicStrategy.get_action hand u cd = .hit) := by
  refine ⟨?_, ?_, ?_, ?_, ?_, ?_⟩
  · intro hb
    simp [BasicStrategy.get_action, hb]
  · intro hb hbj
    simp [BasicStrategy.get_action, hb, hbj]
  · intro hb hbj r hr
    have hp : hand.is_pair = true := by
      rw [Hand.pair_rank] at hr
      rw [Hand.is_pair]
      cases hc : hand.cards with
      | nil => rw [hc] at hr; simp at hr
      | cons x t =>
        cases t with
        | nil => rw [hc] at hr; simp at hr
        | cons y t2 =>
          cases t2 with
          | nil =>
            rw [hc] at hr
            by_cases hxy : x.rank.bj_value = y.rank.bj_value
            · simp [hxy]
            · simp [hxy] at hr
          | cons z t3 => rw [hc] at hr; simp at hr
    obtain ⟨row, hrow⟩ := Option.isSome_iff_exists.mp (pairs_isSome r)
    simp [BasicStrategy.get_action, hb, hbj, hp, hr, hrow]
  · intro hb hbj hp hs row hrow
    simp [BasicStrategy.get_action, hb, hbj, hp, hs, hrow]
  · intro hb hbj hp hs row hrow
    cases hs with
    | inl hs => simp [BasicStrategy.get_action, hb, hbj, hp, hs, hrow]
    | inr hs =>
      by_cases hsoft : hand.is_soft = true
      · simp [BasicStrategy.get_action, hb, hbj, hp, hsoft, hs, hrow]
      · simp only [Bool.not_eq_true] at hsoft
        simp [BasicStrategy.get_action, hb, hbj, hp, hsoft, hrow]
  · intro hb hbj hp hs hrow
    cases hs with
    | inl hs => simp [BasicStrategy.get_action, hb, hbj, hp, hs, hrow]
    | inr hs =>
      by_cases hsoft : hand.is_soft = true
      · simp [BasicStrategy.get_action, hb, hbj, hp, hsoft, hs, hrow]
      · simp only [Bool.not_eq_true] at hsoft
        simp [BasicStrategy.get_action, hb, hbj, hp, hsoft, hrow]

/-- Claim C2 witness: the pair of Aces against upcard 5 is routed through
the pair table (not the soft table) and yields Split; the soft 18 `[A,7]`
against upcard 3 with doubling unavailable has its Double demoted to
Hit. -/
theorem C2_witness :
    BasicStrategy.get_action (Hand.mk [⟨.ace⟩, ⟨.ace⟩]) 5 true =
      ((BasicStrategy.pairs Rank.ace.bj_value).map
        (fun row => row 5)).getD .hit ∧
    BasicStrategy.get_action (Hand.mk [⟨.ace⟩, ⟨.seven⟩]) 3 false =
      Action.hit :=
  ⟨((C2_get_action_amended (Hand.mk [⟨.ace⟩, ⟨.ace⟩]) 5 true).2.2.1
      (by decide) (by decide) Rank.ace (by decide)),
   by decide⟩

/-- Claim C3: an index play applies exactly when the hand total, dealer
upcard, softness flag and pair flag all match the rule and the
sign-dependent threshold test holds (non-negative threshold: count at or
above it; negative threshold: count at or below it); in particular a hard
non-pair 16 against upcard 10 with basic action Hit resolves to Stand at
true count 0.0 and to Hit at true count -0.1. -/
theorem C3_applies_iff (p : IndexPlay) (hand : Hand) (u : Nat) (tc : ℚ) :
    (p.applies hand u tc = true ↔
      (hand.total = p.player_total ∧ u = p.dealer_upcard ∧
       hand.is_soft = p.is_soft ∧ hand.is_pair = p.is_pair ∧
       (if 0 ≤ p.true_count_threshold then p.true_count_threshold ≤ tc
        else tc ≤ p.true_count_threshold))) ∧
    (hand.total = 16 → hand.is_soft = false → hand.is_pair = false →
      (IndexPlays.get_index_action hand 10 0 Action.hit).1 = Action.stand ∧
      (IndexPlays.get_index_action hand 10 (-1/10) Action.hit).1 =
        Action.hit) := by
  constructor
  · cases hps : p.is_soft <;> cases hhs : hand.is_soft <;>
      cases hpp : p.is_pair <;> cases hhp : hand.is_pair <;>
      by_cases hA : hand.total = p.player_total <;>
      by_cases hB : u = p.dealer_upcard <;>
      by_cases hG : (0 : ℚ) ≤ p.true_count_threshold <;>
      simp [IndexPlay.applies, hps, hhs, hpp, hhp, hA, hB, hG]
  · intro htot hsoft hpair
    constructor
    · simp [IndexPlays.get_index_action, IndexPlays.get_applicable_plays,
        IndexPlays.plays, IndexPlay.applies, IndexPlay.get_action,
        htot, hsoft, hpair]
    · have hneg : ¬((0 : ℚ) ≤ -1/10) := by norm_num
      simp [IndexPlays.get_index_action, IndexPlays.get_applicable_plays,
        IndexPlays.plays, IndexPlay.applies, htot, hsoft, hpair, hneg]

/-- Claim C3 witness: the rule matching a hard non-pair 16 against upcard
10 applies at true count 0 and flips the action to Stand, while at true
count -0.1 the basic Hit survives, instantiated at the hand [T,6]. -/
theorem C3_witness :
    (IndexPlays.get_index_action (Hand.mk [⟨.ten⟩, ⟨.six⟩]) 10 0
        Action.hit).1 = Action.stand ∧
    (IndexPlays.get_index_action (Hand.mk [⟨.ten⟩, ⟨.six⟩]) 10 (-1/10)
        Action.hit).1 = Action.hit :=
  (C3_applies_iff ⟨"", "", 0, 0, false, false, 0, .hit, .hit⟩
    (Hand.mk [⟨.ten⟩, ⟨.six⟩]) 10 0).2 (by decide) (by decide) (by decide)

/-- Claim C4: the advisor's final action is never Double when doubling is
unavailable (a Double candidate is demoted to Hit), and never Split when
splitting is unavailable or the hand is not a pair (a Split candidate is
demoted to Stand when the hand total is at least 17, else to Hit). -/
theorem C4_advice_feasibility (hand : Hand) (u : Nat) (tc : ℚ)
    (cd cs : Bool) :
    (cd = false →
      ¬(Advisor.get_advice_action hand u tc cd cs = Action.double)) ∧
    (cd = false → Advisor.candidate hand u tc cd = Action.double →
      Advisor.get_advice_action hand u tc cd cs = Action.hit) ∧
    (¬(cs = true ∧ hand.is_pair = true) →
      ¬(Advisor.get_advice_action hand u tc cd cs = Action.split)) ∧
    (¬(cs = true ∧ hand.is_pair = true) →
      Advisor.candidate hand u tc cd = Action.split →
      Advisor.get_advice_action hand u tc cd cs =
        if 17 ≤ hand.total then Action.stand else Action.hit) := by
  refine ⟨?_, ?_, ?_, ?_⟩
  · intro hcd
    subst hcd
    cases hc : Advisor.candidate hand u tc false <;>
      simp [Advisor.get_advice_action, hc] <;> split_ifs <;> simp
  · intro hcd hc
    subst hcd
    simp [Advisor.get_advice_action, hc]
  · intro hsplit
    cases hc : Advisor.candidate hand u tc cd <;>
      simp only [Advisor.get_advice_action, hc] <;> split_ifs <;>
      simp_all
  · intro hsplit hc
    simp only [Advisor.get_advice_action, hc]
    split_ifs <;> simp_all

/-- Claim C4 witness: a pair of nines against upcard 2 (basic action
Split) without split eligibility resolves to Stand since its total 18 is
at least 17; a pair of eights in the same spot resolves to Hit since its
total is 16; and a 5,5 pair's pair-table Double with doubling unavailable
resolves to Hit at the advisor level. -/
theorem C4_witness :
    Advisor.get_advice_action (Hand.mk [⟨.nine⟩, ⟨.nine⟩]) 2 0 true false =
      Action.stand ∧
    Advisor.get_advice_action (Hand.mk [⟨.eight⟩, ⟨.eight⟩]) 2 0 true false =
      Action.hit ∧
    Advisor.get_advice_action (Hand.mk [⟨.five⟩, ⟨.five⟩]) 2 0 false true =
      Action.hit := by
  refine ⟨?_, ?_, ?_⟩
  · have h := (C4_advice_feasibility (Hand.mk [⟨.nine⟩, ⟨.nine⟩]) 2 0 true
      false).2.2.2 (by simp) (by decide)
    rw [h]
    decide
  · have h := (C4_advice_feasibility (Hand.mk [⟨.eight⟩, ⟨.eight⟩]) 2 0 true
      false).2.2.2 (by simp) (by decide)
    rw [h]
    decide
  · exact (C4_advice_feasibility (Hand.mk [⟨.five⟩, ⟨.five⟩]) 2 0 false
      true).2.1 rfl (by decide)

/-- Claim C10: the "12 vs 4" rule is declared with threshold 0.0, and a
non-negative threshold is tested as a positive deviation, so for every
hard non-pair hand of total 12 against upcard 4 the engine returns the
rule's index action Hit whenever the true count is at least 0 and the
basic-strategy Stand (hard 12 vs 4) whenever it is below 0 — the opposite
direction of the rule's own description "Hit 12 vs 4 at TC <= 0". -/
theorem C10_twelve_vs_four (hand : Hand) (tc : ℚ)
    (htot : hand.total = 12) (hsoft : hand.is_soft = false)
    (hpair : hand.is_pair = false) :
    BasicStrategy.get_action hand 4 true = Action.stand ∧
    (IndexPlays.get_index_action hand 4 tc
        (BasicStrategy.get_action hand 4 true)).1 =
      (if 0 ≤ tc then Action.hit else Action.stand) ∧
    (IndexPlays.plays[11]?).map
        (fun p => (p.true_count_threshold, p.basic_action, p.index_action)) =
      some (0, Action.stand, Action.hit) := by
  have hbasic : BasicStrategy.get_action hand 4 true = Action.stand := by
    simp [BasicStrategy.get_action, Hand.is_busted, Hand.is_blackjack,
      htot, hsoft, hpair, BasicStrategy.hard_totals, BasicStrategy.demote]
  refine ⟨hbasic, ?_, by rfl⟩
  rw [hbasic]
  by_cases htc : (0 : ℚ) ≤ tc
  · simp [IndexPlays.get_index_action, IndexPlays.get_applicable_plays,
      IndexPlays.plays, IndexPlay.applies, IndexPlay.get_action,
      htot, hsoft, hpair, htc]
  · simp [IndexPlays.get_index_action, IndexPlays.get_applicable_plays,
      IndexPlays.plays, IndexPlay.applies, htot, hsoft, hpair, htc]

/-- Claim C10 witness: the hard non-pair hand [T,2] (total 12) against
upcard 4 yields Hit at true count 0 and Stand at true count -1. -/
theorem C10_witness :
    (IndexPlays.get_index_action (Hand.mk [⟨.ten⟩, ⟨.two⟩]) 4 0
        (BasicStrategy.get_action (Hand.mk [⟨.ten⟩, ⟨.two⟩]) 4 true)).1 =
      Action.hit ∧
    (IndexPlays.get_index_action (Hand.mk [⟨.ten⟩, ⟨.two⟩]) 4 (-1)
        (BasicStrategy.get_action (Hand.mk [⟨.ten⟩, ⟨.two⟩]) 4 true)).1 =
      Action.stand := by
  constructor
  · have h := (C10_twelve_vs_four (Hand.mk [⟨.ten⟩, ⟨.two⟩]) 0 (by decide)
      (by decide) (by decide)).2.1
    rw [h]
    norm_num
  · have h := (C10_twelve_vs_four (Hand.mk [⟨.ten⟩, ⟨.two⟩]) (-1) (by decide)
      (by decide) (by decide)).2.1
    rw [h]
    norm_num

end BJ
